import Mathlib

/-!
Verification of `Codehardt/go-taskscheduler` (`taskservice.go`).

The repository enumerates Windows Task Scheduler 2.0 tasks through COM
(go-ole).  We shallowly embed the two functions `GetTasks` and
`getTasksRecursively` over an explicit model of the Directory Service
state: a `FolderNode` tree whose fields record, for every COM call the
Go code can make, whether that call succeeds and which variant value it
returns.  `Option` models a call that can fail (`none` = the call
returns a non-nil error), `VValue` models the loosely typed VARIANT
payload, and Go type assertions with discarded failure
(`x, _ := v.Value().(T)`) become total decoders returning the Go zero
value on mismatch.  `time.Time` is modelled abstractly as `Int` (ticks),
whose Go zero value is `0`.  `variant.ToString()` is modelled as
returning the string payload for a string variant and `""` otherwise.

Handle lifecycle (`ToIDispatch` acquisitions and `Release` calls) is
modelled by a second, instrumented copy of the traversal that counts
acquisitions and releases exactly where the Go source performs them.
-/

namespace TaskSchedulerVerif

/-- A loosely typed VARIANT payload as observed through `variant.Value()`
and `variant.ToString()` in the Go source. -/
inductive VValue where
  | vStr : String → VValue
  | vBool : Bool → VValue
  | vTime : Int → VValue
  | vInt : Int → VValue
  | vOther : VValue
deriving DecidableEq, Repr

/-- Model of `variant.ToString()`: the string payload for a string
variant, the empty string otherwise. -/
def VValue.toStr : VValue → String
  | .vStr s => s
  | _ => ""

/-- Read of a string property: `variant.ToString()` of the returned
variant when the read succeeds, the zero value otherwise. -/
def strRead (o : Option VValue) : String :=
  match o with
  | some v => v.toStr
  | none => ""

/-- Go type assertion `v.Value().(int32)` with discarded `ok`: the
integer payload on match, `0` (the zero value) otherwise. -/
def VValue.asInt32 : VValue → Int
  | .vInt n => n
  | _ => 0

/-- Go type assertion `v.Value().(bool)` with discarded `ok`. -/
def VValue.asBool : VValue → Bool
  | .vBool b => b
  | _ => false

/-- Go type assertion `v.Value().(time.Time)` with discarded `ok`. -/
def VValue.asTime : VValue → Int
  | .vTime t => t
  | _ => 0

/-- The `ExecAction` record from `taskservice.go`. -/
structure ExecAction where
  WorkingDirectory : String
  Path : String
  Arguments : String
deriving DecidableEq, Repr

/-- The `Task` record from `taskservice.go` (`LastRunTime` and
`NextRunTime` modelled as `Int` ticks). -/
structure Task where
  Name : String
  Path : String
  Enabled : Bool
  LastRunTime : Int
  NextRunTime : Int
  ActionList : List ExecAction
deriving DecidableEq, Repr

/-- One action COM object: the outcome of each property read the Go code
performs on it (`none` = the `GetProperty` call fails). -/
structure ActionNode where
  typeProp : Option VValue
  workingDirectory : Option VValue
  path : Option VValue
  arguments : Option VValue
deriving DecidableEq, Repr

/-- The `actions` collection COM object: its `count` property read
outcome and the outcome of `item(i)` for `i = 1, 2, ...` (`items[i-1]`;
indices beyond the list fail to fetch). -/
structure ActionsColl where
  countProp : Option VValue
  items : List (Option ActionNode)
deriving DecidableEq, Repr

/-- The task `definition` COM object: the outcome of its `actions`
property read. -/
structure DefNode where
  actions : Option ActionsColl
deriving DecidableEq, Repr

/-- One registered-task COM object: the outcome of every property read
the Go code performs on it. -/
structure TaskNode where
  name : Option VValue
  path : Option VValue
  enabled : Option VValue
  lastRunTime : Option VValue
  nextRunTime : Option VValue
  definition : Option DefNode
deriving DecidableEq, Repr

/-- One folder COM object.  `getFolders` is the outcome of the
`GetFolders(0)` call: on success it yields the folder iterator, i.e. the
outcome of its `count` property read and of `item(i)` for each index.
`getTasksColl` is likewise the outcome of the `GetTasks(0)` call. -/
inductive FolderNode where
  | mk : Option (Option VValue × List (Option FolderNode)) →
      Option (Option VValue × List (Option TaskNode)) → FolderNode

/-- The folder-iterator field of a `FolderNode`. -/
def FolderNode.getFolders : FolderNode → Option (Option VValue × List (Option FolderNode))
  | .mk gf _ => gf

/-- The task-iterator field of a `FolderNode`. -/
def FolderNode.getTasksColl : FolderNode → Option (Option VValue × List (Option TaskNode))
  | .mk _ gt => gt

/-- Lines 142-151 of `taskservice.go`: build an `ExecAction` from three
independent property reads, each failing read leaving the zero value. -/
def projExecAction (a : ActionNode) : ExecAction :=
  { WorkingDirectory := strRead a.workingDirectory
    Path := strRead a.path
    Arguments := strRead a.arguments }

/-- Lines 126-154: the action loop.  The first argument is the `item`
outcomes of the actions collection, walked together with the remaining
iteration count (iteration `i` fetches `items[i-1]`; a failed fetch or a
failed/`!= 0` type read skips the index). -/
def actionsLoop : List (Option ActionNode) → Nat → List ExecAction
  | _, 0 => []
  | [], _ + 1 => []
  | none :: rest, n + 1 => actionsLoop rest n
  | some a :: rest, n + 1 =>
    match a.typeProp with
    | none => actionsLoop rest n
    | some tv =>
      if tv.asInt32 = 0 then projExecAction a :: actionsLoop rest n
      else actionsLoop rest n

/-- Lines 103-158: project one task COM object to a `Task` record: five
independent property reads (failing reads leave the zero value), then
the `definition` → `actions` → `count` chain guarding the action loop
(any failure in the chain leaves `ActionList` empty). -/
def projTask (tk : TaskNode) : Task :=
  { Name := strRead tk.name
    Path := strRead tk.path
    Enabled := (tk.enabled.map VValue.asBool).getD false
    LastRunTime := (tk.lastRunTime.map VValue.asTime).getD 0
    NextRunTime := (tk.nextRunTime.map VValue.asTime).getD 0
    ActionList :=
      match tk.definition with
      | none => []
      | some d =>
        match d.actions with
        | none => []
        | some ac =>
          match ac.countProp with
          | none => []
          | some cv => actionsLoop ac.items cv.asInt32.toNat }

/-- Lines 96-160: the task loop.  Iteration `i` fetches `items[i-1]`; a
failed fetch skips the index, a successful fetch appends the projected
record. -/
def tasksLoop : List (Option TaskNode) → Nat → List Task
  | _, 0 => []
  | [], _ + 1 => []
  | none :: rest, n + 1 => tasksLoop rest n
  | some tk :: rest, n + 1 => projTask tk :: tasksLoop rest n

mutual

/-- Lines 61-163 of `taskservice.go`: `getTasksRecursively`.  A failed
`GetFolders` call or folder-iterator `count` read returns the empty
accumulator; a failed `GetTasks` call or task-iterator `count` read
returns the subfolder tasks accumulated so far; `count` values are
decoded via the discarded-failure `int32` assertion and the loops run
`i = 1 .. count`. -/
def getTasksRecursively : FolderNode → List Task
  | .mk gf gt =>
    match gf with
    | none => []
    | some (cntP, subs) =>
      match cntP with
      | none => []
      | some cv =>
        let subTasks := foldersLoop subs cv.asInt32.toNat
        match gt with
        | none => subTasks
        | some (cntP2, tis) =>
          match cntP2 with
          | none => subTasks
          | some cv2 => subTasks ++ tasksLoop tis cv2.asInt32.toNat

/-- Lines 75-85: the subfolder loop.  Iteration `i` fetches
`items[i-1]`; a failed fetch skips the index, a successful fetch
recurses and appends all returned tasks. -/
def foldersLoop : List (Option FolderNode) → Nat → List Task
  | _, 0 => []
  | [], _ + 1 => []
  | none :: rest, n + 1 => foldersLoop rest n
  | some sf :: rest, n + 1 => getTasksRecursively sf ++ foldersLoop rest n

end

/-! ### Derived views of the three loops

Each loop walks its `item`-outcome list together with the decoded
`count`; the lemmas below characterise them by ordinary list
combinators, which makes the per-index fault-tolerance visible. -/

/-- Contribution of one subfolder-index fetch outcome: a failed fetch
contributes no tasks, a successful one contributes the recursive
enumeration. -/
def runSub : Option FolderNode → List Task
  | none => []
  | some sf => getTasksRecursively sf

/-- Contribution of one task-index fetch outcome: a failed fetch emits
no record, a successful one emits the projected record. -/
def keepTask : Option TaskNode → Option Task :=
  fun o => o.map projTask

/-- Contribution of one action-index fetch outcome: a failed fetch, a
failed `type` read, or a non-zero decoded `type` emits nothing; an
execute-program action emits its projection. -/
def keepAction : Option ActionNode → Option ExecAction
  | none => none
  | some a =>
    match a.typeProp with
    | none => none
    | some tv => if tv.asInt32 = 0 then some (projExecAction a) else none

/-- A folder whose iterator fetches succeed and whose `count` properties
report exactly the available indices. -/
def mkFolder (subs : List (Option FolderNode)) (tis : List (Option TaskNode)) : FolderNode :=
  .mk (some (some (.vInt subs.length), subs)) (some (some (.vInt tis.length), tis))

/-- Attach an actions collection (with an accurate `count`) to a task
object. -/
def withActions (tk : TaskNode) (ans : List (Option ActionNode)) : TaskNode :=
  { tk with definition := some ⟨some ⟨some (.vInt ans.length), ans⟩⟩ }

/-! ### Failure-free trees and the spec-side enumeration -/

/-- Every property read of the action succeeds. -/
def actionHealthy (a : ActionNode) : Bool :=
  a.typeProp.isSome && a.workingDirectory.isSome && a.path.isSome && a.arguments.isSome

/-- Every property read and fetch on the task succeeds and the actions
`count` reports exactly the available indices. -/
def taskHealthy (tk : TaskNode) : Bool :=
  tk.name.isSome && tk.path.isSome && tk.enabled.isSome &&
  tk.lastRunTime.isSome && tk.nextRunTime.isSome &&
  match tk.definition with
  | none => false
  | some d =>
    match d.actions with
    | none => false
    | some ac =>
      (match ac.countProp with
       | some (.vInt n) => n == (ac.items.length : Int)
       | _ => false) &&
      ac.items.all (fun o =>
        match o with
        | none => false
        | some a => actionHealthy a)

mutual

/-- No fetch or property read anywhere in the folder's tree fails, and
every `count` reports exactly the available indices. -/
def folderHealthy : FolderNode → Bool
  | .mk gf gt =>
    match gf with
    | none => false
    | some (cntP, subs) =>
      (match cntP with
       | some (.vInt n) => n == (subs.length : Int)
       | _ => false) &&
      foldersHealthy subs &&
      match gt with
      | none => false
      | some (cntP2, tis) =>
        (match cntP2 with
         | some (.vInt n) => n == (tis.length : Int)
         | _ => false) &&
        tis.all (fun o =>
          match o with
          | none => false
          | some tk => taskHealthy tk)

/-- All subfolder fetches succeed and the fetched subfolders are
healthy. -/
def foldersHealthy : List (Option FolderNode) → Bool
  | [] => true
  | none :: _ => false
  | some sf :: rest => folderHealthy sf && foldersHealthy rest

end

mutual

/-- Modelled from the spec: the reference enumeration — depth-first,
all subfolder tasks first, then one projected record per own task. -/
def specEnumerate : FolderNode → List Task
  | .mk gf gt =>
    (match gf with
     | none => []
     | some (_, subs) => specEnumerateList subs)
      ++ ((gt.map Prod.snd).getD []).filterMap keepTask

/-- Modelled from the spec: concatenation of the subfolder
enumerations, in order. -/
def specEnumerateList : List (Option FolderNode) → List Task
  | [] => []
  | none :: rest => specEnumerateList rest
  | some sf :: rest => specEnumerate sf ++ specEnumerateList rest

end

mutual

/-- Modelled from the spec: the sum of all task counts across all
levels of the tree. -/
def totalTasks : FolderNode → Nat
  | .mk gf gt =>
    (match gf with
     | none => 0
     | some (_, subs) => totalTasksList subs)
      + ((gt.map Prod.snd).getD []).length

/-- Modelled from the spec: total task count of a list of subfolder
entries. -/
def totalTasksList : List (Option FolderNode) → Nat
  | [] => 0
  | none :: rest => totalTasksList rest
  | some sf :: rest => totalTasks sf + totalTasksList rest

end

/-! ### `lastRunTime`-erasure, for the idempotence claim -/

/-- Erase the `LastRunTime` field of an output record. -/
def eraseLast (t : Task) : Task :=
  { t with LastRunTime := 0 }

/-- Canonicalise the `lastRunTime` property of a task object. -/
def scrubTask (tk : TaskNode) : TaskNode :=
  { tk with lastRunTime := some (.vTime 0) }

mutual

/-- Canonicalise every `lastRunTime` property in the tree; two service
states representing the same unchanged tree up to `lastRunTime` drift
have equal scrubs. -/
def scrubFolder : FolderNode → FolderNode
  | .mk gf gt =>
    .mk
      (match gf with
       | none => none
       | some (cntP, subs) => some (cntP, scrubFolderList subs))
      (match gt with
       | none => none
       | some (cntP2, tis) => some (cntP2, tis.map (Option.map scrubTask)))

/-- Canonicalise every `lastRunTime` property in a subfolder-entry
list. -/
def scrubFolderList : List (Option FolderNode) → List (Option FolderNode)
  | [] => []
  | none :: rest => none :: scrubFolderList rest
  | some sf :: rest => some (scrubFolder sf) :: scrubFolderList rest

end

/-! ### The connection tier (`GetTasks`, lines 29-59) -/

/-- Outcome of each connection-tier step plus the root folder the
service would hand out.  (`coInitOk`: `CoInitializeEx`;
`createInstanceOk`: `CreateInstance`; `queryInterfaceOk`:
`QueryInterface`; `connectOk`: the `Connect` call; `getFolderOk`: the
`GetFolder "\\"` call.) -/
structure Env where
  coInitOk : Bool
  createInstanceOk : Bool
  queryInterfaceOk : Bool
  connectOk : Bool
  getFolderOk : Bool
  root : FolderNode

/-- Error message of line 32 of `taskservice.go`. -/
def errCoInit : String :=
  "Could not initialize Windows COM API"

/-- Error message of line 38 of `taskservice.go`. -/
def errCreate : String :=
  "Could not initialize Task Scheduler 2.0"

/-- Error message of line 44 of `taskservice.go`. -/
def errQuery : String :=
  "Could not prepare Task Scheduler 2.0"

/-- Error message of line 49 of `taskservice.go`. -/
def errConnect : String :=
  "Could not connect to Task Scheduler 2.0"

/-- Error message of line 54 of `taskservice.go`. -/
def errGetFolder : String :=
  "Could not get root folder in Task Scheduler 2.0"

/-- Lines 29-59 of `taskservice.go`: `GetTasks`.  Go's
`(nil, err)` / `(list, nil)` pair is modelled as `Except`: an error
carries no task list. -/
def GetTasks (e : Env) : Except String (List Task) :=
  if ¬ e.coInitOk then .error errCoInit
  else if ¬ e.createInstanceOk then .error errCreate
  else if ¬ e.queryInterfaceOk then .error errQuery
  else if ¬ e.connectOk then .error errConnect
  else if ¬ e.getFolderOk then .error errGetFolder
  else .ok (getTasksRecursively e.root)

/-! ### Handle accounting

Instrumented copies of the traversal returning, besides the task list,
the number of handle acquisitions (`ToIDispatch()` at lines 70, 81, 91,
102, 121, 123, 132) and of `Release()` calls (lines 84, 86, 134, 139,
153, 159, 161), placed exactly where the Go source performs them. -/

/-- Lines 126-154 instrumented: each successfully fetched action handle
is acquired once and released once on every path (type-read failure,
non-exec type, and the kept case). -/
def actionsLoopH : List (Option ActionNode) → Nat → List ExecAction × Nat × Nat
  | _, 0 => ([], 0, 0)
  | [], _ + 1 => ([], 0, 0)
  | none :: rest, n + 1 => actionsLoopH rest n
  | some a :: rest, n + 1 =>
    let r := actionsLoopH rest n
    match a.typeProp with
    | none => (r.1, r.2.1 + 1, r.2.2 + 1)
    | some tv =>
      if tv.asInt32 = 0 then (projExecAction a :: r.1, r.2.1 + 1, r.2.2 + 1)
      else (r.1, r.2.1 + 1, r.2.2 + 1)

/-- Lines 103-158 instrumented: the `definition` handle (line 121) and
the `actions` collection handle (line 123) are acquired whenever the
corresponding property read succeeds, and the source contains no
`Release` call for either. -/
def projTaskH (tk : TaskNode) : Task × Nat × Nat :=
  match tk.definition with
  | none => (projTask tk, 0, 0)
  | some d =>
    match d.actions with
    | none => (projTask tk, 1, 0)
    | some ac =>
      match ac.countProp with
      | none => (projTask tk, 2, 0)
      | some cv =>
        let r := actionsLoopH ac.items cv.asInt32.toNat
        (projTask tk, 2 + r.2.1, r.2.2)

/-- Lines 96-160 instrumented: each successfully fetched task handle is
acquired at line 102 and released at line 159. -/
def tasksLoopH : List (Option TaskNode) → Nat → List Task × Nat × Nat
  | _, 0 => ([], 0, 0)
  | [], _ + 1 => ([], 0, 0)
  | none :: rest, n + 1 => tasksLoopH rest n
  | some tk :: rest, n + 1 =>
    let p := projTaskH tk
    let r := tasksLoopH rest n
    (p.1 :: r.1, 1 + p.2.1 + r.2.1, 1 + p.2.2 + r.2.2)

mutual

/-- Lines 61-163 instrumented.  The folder iterator (line 70) and task
iterator (line 91) are acquired on the success of their calls; when the
subsequent `count` property read fails the Go code `return`s without the
corresponding `Release` (lines 71-73 and 92-94), so those paths record
an acquisition with no release. -/
def getTasksRecursivelyH : FolderNode → List Task × Nat × Nat
  | .mk gf gt =>
    match gf with
    | none => ([], 0, 0)
    | some (cntP, subs) =>
      match cntP with
      | none => ([], 1, 0)
      | some cv =>
        let r := foldersLoopH subs cv.asInt32.toNat
        match gt with
        | none => (r.1, 1 + r.2.1, 1 + r.2.2)
        | some (cntP2, tis) =>
          match cntP2 with
          | none => (r.1, 1 + r.2.1 + 1, 1 + r.2.2)
          | some cv2 =>
            let s := tasksLoopH tis cv2.asInt32.toNat
            (r.1 ++ s.1, 1 + r.2.1 + 1 + s.2.1, 1 + r.2.2 + 1 + s.2.2)

/-- Lines 75-85 instrumented: each successfully fetched subfolder handle
is acquired at line 81 and released at line 84. -/
def foldersLoopH : List (Option FolderNode) → Nat → List Task × Nat × Nat
  | _, 0 => ([], 0, 0)
  | [], _ + 1 => ([], 0, 0)
  | none :: rest, n + 1 => foldersLoopH rest n
  | some sf :: rest, n + 1 =>
    let rs := getTasksRecursivelyH sf
    let rr := foldersLoopH rest n
    (rs.1 ++ rr.1, 1 + rs.2.1 + rr.2.1, 1 + rs.2.2 + rr.2.2)

end

/-! ### Concrete fixtures -/

/-- An action object whose `type` reads as the execute-program tag 0. -/
def exActExec1 : ActionNode :=
  ⟨some (.vInt 0), some (.vStr ("C:\\w1")), some (.vStr ("C:\\p1.exe")),
    some (.vStr ("-a"))⟩

/-- An action object whose `type` reads as 6 (send-email). -/
def exActMail : ActionNode :=
  ⟨some (.vInt 6), some (.vStr ("C:\\w2")), some (.vStr ("C:\\p2.exe")),
    some (.vStr ("-b"))⟩

/-- A second execute-program action object. -/
def exActExec2 : ActionNode :=
  ⟨some (.vInt 0), some (.vStr ("C:\\w3")), some (.vStr ("C:\\p3.exe")),
    some (.vStr ("-c"))⟩

/-- Task "A", fully readable, with one execute-program action. -/
def exTaskA : TaskNode :=
  ⟨some (.vStr ("A")), some (.vStr ("\\A")), some (.vBool true), some (.vTime 11),
    some (.vTime 12), some ⟨some ⟨some (.vInt 1), [some exActExec1]⟩⟩⟩

/-- Task "B", fully readable, with no actions. -/
def exTaskB : TaskNode :=
  ⟨some (.vStr ("B")), some (.vStr ("\\F\\B")), some (.vBool true), some (.vTime 13),
    some (.vTime 14), some ⟨some ⟨some (.vInt 0), []⟩⟩⟩

/-- Folder "F": no subfolders, one task B. -/
def exFolderF : FolderNode := mkFolder [] [some exTaskB]

/-- Root folder: subfolder F and own task A. -/
def exRoot : FolderNode := mkFolder [some exFolderF] [some exTaskA]

/-- Task "A" with a drifted `lastRunTime` value. -/
def exTaskA2 : TaskNode := { exTaskA with lastRunTime := some (.vTime 99) }

/-- An environment whose COM initialization fails. -/
def exEnvFail : Env := ⟨false, true, true, true, true, exRoot⟩

/-! ## Theorems -/

theorem tasksLoop_eq (tis : List (Option TaskNode)) (n : Nat) :
    tasksLoop tis n = (tis.take n).filterMap keepTask := by
  induction tis generalizing n with
  | nil => cases n <;> simp [tasksLoop]
  | cons hd tl ih =>
    cases n with
    | zero => simp [tasksLoop]
    | succ m => cases hd <;> simp [tasksLoop, keepTask, ih]

theorem actionsLoop_eq (ans : List (Option ActionNode)) (n : Nat) :
    actionsLoop ans n = (ans.take n).filterMap keepAction := by
  induction ans generalizing n with
  | nil => cases n <;> simp [actionsLoop]
  | cons hd tl ih =>
    cases n with
    | zero => simp [actionsLoop]
    | succ m =>
      cases hd with
      | none => simp [actionsLoop, keepAction, ih]
      | some a =>
        cases h : a.typeProp with
        | none => simp [actionsLoop, keepAction, h, ih]
        | some tv =>
          by_cases h0 : tv.asInt32 = 0 <;>
            simp [actionsLoop, keepAction, h, h0, ih]

theorem foldersLoop_eq (subs : List (Option FolderNode)) (n : Nat) :
    foldersLoop subs n = (subs.take n).flatMap runSub := by
  induction subs generalizing n with
  | nil => cases n <;> simp [foldersLoop]
  | cons hd tl ih =>
    cases n with
    | zero => simp [foldersLoop]
    | succ m => cases hd <;> simp [foldersLoop, runSub, ih]

theorem getTasksRecursively_mkFolder (subs : List (Option FolderNode))
    (tis : List (Option TaskNode)) :
    getTasksRecursively (mkFolder subs tis)
      = subs.flatMap runSub ++ tis.filterMap keepTask := by
  simp [mkFolder, getTasksRecursively, VValue.asInt32, foldersLoop_eq, tasksLoop_eq]

theorem withActions_actionList (tk : TaskNode) (ans : List (Option ActionNode)) :
    (projTask (withActions tk ans)).ActionList = ans.filterMap keepAction := by
  simp [withActions, projTask, VValue.asInt32, actionsLoop_eq]

/-- Claim C3: for every folder, the tasks collected from all of its
subfolders (recursively, depth-first) appear in the output sequence
before the folder's own immediate tasks; for a root with own task A and
subfolder F containing task B the result is `[B, A]`. -/
theorem C3_subfolder_tasks_before_own :
    (∀ (subs : List (Option FolderNode)) (tis : List (Option TaskNode)),
      getTasksRecursively (mkFolder subs tis)
        = subs.flatMap runSub ++ tis.filterMap keepTask)
    ∧ getTasksRecursively exRoot = [projTask exTaskB, projTask exTaskA]
    ∧ (getTasksRecursively exRoot).map Task.Name = ["B", "A"] := by
  refine ⟨getTasksRecursively_mkFolder, by decide, by decide⟩

/-- Claim C7: when fetching a task by index fails, that task is omitted
from the result entirely — no partial or zero-valued record is emitted
for it — and enumeration continues with the next index: both at the
task-loop level and for the whole folder. -/
theorem C7_failed_task_fetch_skipped :
    ∀ (subs : List (Option FolderNode)) (pre post : List (Option TaskNode)),
      tasksLoop (pre ++ none :: post) (pre ++ none :: post).length
        = pre.filterMap keepTask ++ post.filterMap keepTask
      ∧ getTasksRecursively (mkFolder subs (pre ++ none :: post))
        = subs.flatMap runSub ++ (pre.filterMap keepTask ++ post.filterMap keepTask) := by
  intro subs pre post
  constructor
  · rw [tasksLoop_eq, List.take_length]
    simp [keepTask]
  · simp [getTasksRecursively_mkFolder, keepTask]

/-- Claim C1: a failure at any single leaf degrades only that leaf's
data.  The embedding of `getTasksRecursively` is a total function into
`List Task`, so no traversal failure is ever surfaced as an error; the
four conjuncts localise, in turn, a failing subfolder fetch (zero tasks
from that index, siblings and the parent's own tasks unchanged), a
failing task fetch, a failing action fetch, and a failing property
read. -/
theorem C1_single_leaf_failure_is_local :
    ∀ (preS postS subs : List (Option FolderNode)) (tis preT postT : List (Option TaskNode))
      (preA postA : List (Option ActionNode)) (tk : TaskNode),
      getTasksRecursively (mkFolder (preS ++ none :: postS) tis)
        = preS.flatMap runSub ++ postS.flatMap runSub ++ tis.filterMap keepTask
      ∧ getTasksRecursively (mkFolder subs (preT ++ none :: postT))
        = subs.flatMap runSub ++ preT.filterMap keepTask ++ postT.filterMap keepTask
      ∧ (projTask (withActions tk (preA ++ none :: postA))).ActionList
        = preA.filterMap keepAction ++ postA.filterMap keepAction
      ∧ projTask { tk with name := none } = { projTask tk with Name := "" } := by
  intro preS postS subs tis preT postT preA postA tk
  refine ⟨?_, ?_, ?_, ?_⟩
  · simp [getTasksRecursively_mkFolder, runSub]
  · simp [getTasksRecursively_mkFolder, keepTask]
  · simp [withActions_actionList, keepAction]
  · cases tk; simp [projTask, strRead]

/-- Claim C5: the five task property reads are independent — each
failing read leaves only its own field at the zero value, leaves the
other fields as read, and does not remove the task from the result. -/
theorem C5_property_reads_independent :
    ∀ (tk : TaskNode),
      projTask { tk with name := none } = { projTask tk with Name := "" }
      ∧ projTask { tk with path := none } = { projTask tk with Path := "" }
      ∧ projTask { tk with enabled := none } = { projTask tk with Enabled := false }
      ∧ projTask { tk with lastRunTime := none } = { projTask tk with LastRunTime := 0 }
      ∧ projTask { tk with nextRunTime := none } = { projTask tk with NextRunTime := 0 }
      ∧ getTasksRecursively (mkFolder [] [some { tk with enabled := none }])
        = [{ projTask tk with Enabled := false }] := by
  intro tk
  cases tk
  refine ⟨?_, ?_, ?_, ?_, ?_, ?_⟩ <;>
    simp [projTask, strRead, getTasksRecursively_mkFolder, keepTask]

theorem asInt32_of_not_vInt (v : VValue) (h : ∀ n : Int, v ≠ .vInt n) :
    v.asInt32 = 0 := by
  cases v <;> first
    | rfl
    | exact absurd rfl (h _)

/-- Claim C10: when a `count` property read succeeds but its value is
not a 32-bit integer, the discarded-failure type assertion yields 0, so
the corresponding collection (subfolders, own tasks, or actions)
contributes no entries, no error is raised, and the rest of the
enumeration proceeds normally. -/
theorem C10_undecodable_count_means_empty :
    ∀ (v : VValue) (subs : List (Option FolderNode)) (tis : List (Option TaskNode))
      (tk : TaskNode) (ans : List (Option ActionNode)),
      (∀ n : Int, v ≠ .vInt n) →
      getTasksRecursively (.mk (some (some v, subs)) (some (some (.vInt (tis.length : Int)), tis)))
        = tis.filterMap keepTask
      ∧ getTasksRecursively (.mk (some (some (.vInt (subs.length : Int)), subs)) (some (some v, tis)))
        = subs.flatMap runSub
      ∧ projTask { tk with definition := some ⟨some ⟨some v, ans⟩⟩ }
        = { projTask tk with ActionList := [] }
      ∧ getTasksRecursively (mkFolder [] [some { tk with definition := some ⟨some ⟨some v, ans⟩⟩ }])
        = [{ projTask tk with ActionList := [] }] := by
  intro v subs tis tk ans hv
  have h0 : v.asInt32 = 0 := asInt32_of_not_vInt v hv
  refine ⟨?_, ?_, ?_, ?_⟩
  · simp [getTasksRecursively, h0, foldersLoop, tasksLoop_eq, VValue.asInt32]
  · simp [getTasksRecursively, h0, foldersLoop_eq, tasksLoop, VValue.asInt32]
  · cases tk
    simp [projTask, h0, actionsLoop]
  · cases tk
    simp [getTasksRecursively_mkFolder, keepTask, projTask, h0, actionsLoop]

/-- Witness for C10 at `v = vOther` on concrete fixtures. -/
theorem C10_witness :
    (∀ n : Int, VValue.vOther ≠ .vInt n)
    ∧ getTasksRecursively
        (.mk (some (some .vOther, [some exFolderF])) (some (some (.vInt 1), [some exTaskA])))
        = [projTask exTaskA] := by
  have hv : ∀ n : Int, VValue.vOther ≠ .vInt n := fun n h => by cases h
  have h := (C10_undecodable_count_means_empty .vOther [some exFolderF] [some exTaskA]
    exTaskB [] hv).1
  refine ⟨hv, ?_⟩
  simpa [keepTask] using h

/-- Claim C8: a failure in any connection-tier step makes `GetTasks`
return an error with no task list — never a partial list alongside an
error. -/
theorem C8_connection_failure_is_terminal :
    ∀ e : Env,
      (e.coInitOk = false ∨ e.createInstanceOk = false ∨ e.queryInterfaceOk = false
        ∨ e.connectOk = false ∨ e.getFolderOk = false) →
      (∃ msg, GetTasks e = .error msg) ∧ ∀ l, GetTasks e ≠ .ok l := by
  intro e h
  have herr : ∃ msg, GetTasks e = .error msg := by
    rcases e with ⟨ci, cr, qi, co, gf, root⟩
    cases ci <;> cases cr <;> cases qi <;> cases co <;> cases gf <;>
      simp_all [GetTasks]
  refine ⟨herr, ?_⟩
  intro l hl
  rcases herr with ⟨msg, hm⟩
  rw [hm] at hl
  cases hl

/-- Witness for C8: COM initialization fails in `exEnvFail`. -/
theorem C8_witness :
    exEnvFail.coInitOk = false
    ∧ (∃ msg, GetTasks exEnvFail = .error msg)
    ∧ ∀ l, GetTasks exEnvFail ≠ .ok l := by
  have h := C8_connection_failure_is_terminal exEnvFail (Or.inl rfl)
  exact ⟨rfl, h.1, h.2⟩

/-- Claim C2 is violated by the code; this theorem evaluates the
instrumented embedding at the failing inputs.  For a folder holding one
fully readable task with one action, the traversal performs 6 handle
acquisitions (folder iterator, task iterator, task, definition, actions
collection, action) but only 4 releases: the `definition` and `actions`
handles are never released.  When a folder iterator's (resp. task
iterator's) `count` read fails, the early `return` skips that
iterator's release as well. -/
theorem C2_handles_leak :
    ((getTasksRecursivelyH (mkFolder [] [some exTaskA])).2.1 = 6
      ∧ (getTasksRecursivelyH (mkFolder [] [some exTaskA])).2.2 = 4)
    ∧ ((getTasksRecursivelyH (.mk (some (none, [])) none)).2.1 = 1
      ∧ (getTasksRecursivelyH (.mk (some (none, [])) none)).2.2 = 0)
    ∧ ((getTasksRecursivelyH (.mk (some (some (.vInt 0), [])) (some (none, [])))).2.1 = 2
      ∧ (getTasksRecursivelyH (.mk (some (some (.vInt 0), [])) (some (none, [])))).2.2 = 1)
    ∧ (getTasksRecursivelyH (mkFolder [] [some exTaskA])).1
      = getTasksRecursively (mkFolder [] [some exTaskA]) := by
  decide

/-- Claim C4: only actions whose readable `type` discriminant equals
the execute-program tag 0 are retained, in original relative order;
with kinds {0, 6, 0} exactly the two execute-program actions remain. -/
theorem C4_only_exec_actions_retained :
    (∀ (tk : TaskNode) (ans : List ActionNode),
      (∀ a ∈ ans, ∃ n : Int, a.typeProp = some (.vInt n)) →
      (projTask (withActions tk (ans.map some))).ActionList
        = (ans.filter fun a => decide (a.typeProp = some (.vInt 0))).map projExecAction)
    ∧ (projTask (withActions exTaskB [some exActExec1, some exActMail, some exActExec2])).ActionList
        = [projExecAction exActExec1, projExecAction exActExec2] := by
  constructor
  · intro tk ans hans
    rw [withActions_actionList]
    induction ans with
    | nil => simp
    | cons hd tl ih =>
      obtain ⟨n, hn⟩ := hans hd (List.mem_cons_self hd tl)
      have htl := ih fun a ha => hans a (List.mem_cons_of_mem hd ha)
      by_cases h0 : n = 0
      · subst h0
        simp [keepAction, hn, VValue.asInt32, htl]
      · simp [keepAction, hn, VValue.asInt32, h0, htl]
  · decide

/-- Witness for C4 on the concrete action list {exec, mail}. -/
theorem C4_witness :
    (∀ a ∈ [exActExec1, exActMail], ∃ n : Int, a.typeProp = some (.vInt n))
    ∧ (projTask (withActions exTaskB ([exActExec1, exActMail].map some))).ActionList
        = ([exActExec1, exActMail].filter fun a =>
            decide (a.typeProp = some (.vInt 0))).map projExecAction := by
  have hans : ∀ a ∈ [exActExec1, exActMail], ∃ n : Int, a.typeProp = some (.vInt n) := by
    intro a ha
    rcases List.mem_cons.mp ha with rfl | ha2
    · exact ⟨0, rfl⟩
    rcases List.mem_cons.mp ha2 with rfl | ha3
    · exact ⟨6, rfl⟩
    cases ha3
  exact ⟨hans, (C4_only_exec_actions_retained.1 exTaskB [exActExec1, exActMail] hans)⟩

theorem filterMap_keepTask_length (tis : List (Option TaskNode))
    (h : ∀ o ∈ tis, Option.isSome o) :
    (tis.filterMap keepTask).length = tis.length := by
  induction tis with
  | nil => simp
  | cons hd tl ih =>
    cases hd with
    | none => exact absurd (h none (List.mem_cons_self _ _)) (by simp)
    | some tk =>
      simp [keepTask, ih fun o ho => h o (List.mem_cons_of_mem _ ho)]

/-- Claim C6: on a tree where no fetch or property read fails and every
`count` is accurate, the enumeration returns exactly the reference
depth-first sequence — one record per task of every folder at every
level — whose length is the sum of all task counts across all levels. -/
theorem C6_complete_under_no_failures :
    ∀ f : FolderNode, folderHealthy f = true →
      getTasksRecursively f = specEnumerate f
      ∧ (getTasksRecursively f).length = totalTasks f := by
  intro f
  refine getTasksRecursively.induct
    (motive_1 := fun f => folderHealthy f = true →
      getTasksRecursively f = specEnumerate f
      ∧ (getTasksRecursively f).length = totalTasks f)
    (motive_2 := fun l n => foldersHealthy l = true → n = l.length →
      foldersLoop l n = specEnumerateList l
      ∧ (foldersLoop l n).length = totalTasksList l)
    ?_ ?_ ?_ ?_ ?_ ?_ ?_ ?_ ?_ f
  · intro a h
    simp [folderHealthy] at h
  · intro a subs h
    simp [folderHealthy] at h
  · intro subs tv ih h
    simp [folderHealthy] at h
  · intro subs tv tis ih h
    simp [folderHealthy] at h
  · intro subs tv tis tv1 ih h
    simp only [folderHealthy, Bool.and_eq_true] at h
    obtain ⟨⟨hcnt, hsubs⟩, hcnt2, htasks⟩ := h
    cases tv with
    | vInt n =>
      cases tv1 with
      | vInt m =>
        have hn : n = (subs.length : Int) := by simpa using hcnt
        have hm : m = (tis.length : Int) := by simpa using hcnt2
        subst hn hm
        have IH := ih hsubs (by simp [VValue.asInt32])
        simp only [VValue.asInt32, Int.toNat_natCast] at IH
        have hsome : ∀ o ∈ tis, Option.isSome o := by
          intro o ho
          have := List.all_eq_true.mp htasks o ho
          cases o with
          | none => simp at this
          | some tk => simp
        constructor
        · simp [getTasksRecursively, specEnumerate, VValue.asInt32, IH.1,
            tasksLoop_eq]
        · simp [getTasksRecursively, totalTasks, VValue.asInt32, IH.2,
            tasksLoop_eq, filterMap_keepTask_length tis hsome]
      | vStr s => simp at hcnt2
      | vBool b => simp at hcnt2
      | vTime t => simp at hcnt2
      | vOther => simp at hcnt2
    | vStr s => simp at hcnt
    | vBool b => simp at hcnt
    | vTime t => simp at hcnt
    | vOther => simp at hcnt
  · intro t _ hlen
    have ht : t = [] := List.eq_nil_of_length_eq_zero hlen.symm
    subst ht
    simp [foldersLoop, specEnumerateList, totalTasksList]
  · intro n _ hlen
    simp at hlen
  · intro rest n ih h
    simp [foldersHealthy] at h
  · intro sf rest n ih1 ih2 h hlen
    simp only [foldersHealthy, Bool.and_eq_true] at h
    obtain ⟨hsf, hrest⟩ := h
    have hn : n = rest.length := by
      simpa using hlen
    have A := ih1 hsf
    have B := ih2 hrest hn
    constructor
    · simp [foldersLoop, specEnumerateList, A.1, B.1]
    · simp [foldersLoop, totalTasksList, A.2, B.2]

/-- Witness for C6 on the concrete healthy tree `exRoot`. -/
theorem C6_witness :
    folderHealthy exRoot = true
    ∧ getTasksRecursively exRoot = specEnumerate exRoot
    ∧ (getTasksRecursively exRoot).length = totalTasks exRoot := by
  have h := C6_complete_under_no_failures exRoot (by decide)
  exact ⟨by decide, h.1, h.2⟩

theorem projTask_scrubTask (tk : TaskNode) :
    projTask (scrubTask tk) = eraseLast (projTask tk) := by
  cases tk
  simp [projTask, scrubTask, eraseLast, VValue.asTime]

theorem tasksLoop_scrub (tis : List (Option TaskNode)) (n : Nat) :
    tasksLoop (tis.map (Option.map scrubTask)) n = (tasksLoop tis n).map eraseLast := by
  induction tis generalizing n with
  | nil => cases n <;> simp [tasksLoop]
  | cons hd tl ih =>
    cases n with
    | zero => simp [tasksLoop]
    | succ m => cases hd <;> simp [tasksLoop, ih, projTask_scrubTask]

theorem scrub_run : ∀ f : FolderNode,
    getTasksRecursively (scrubFolder f) = (getTasksRecursively f).map eraseLast := by
  intro f
  refine getTasksRecursively.induct
    (motive_1 := fun f =>
      getTasksRecursively (scrubFolder f) = (getTasksRecursively f).map eraseLast)
    (motive_2 := fun l n =>
      foldersLoop (scrubFolderList l) n = (foldersLoop l n).map eraseLast)
    ?_ ?_ ?_ ?_ ?_ ?_ ?_ ?_ ?_ f
  · intro a
    simp [scrubFolder, getTasksRecursively]
  · intro a subs
    simp [scrubFolder, getTasksRecursively]
  · intro subs tv ih
    simp [scrubFolder, getTasksRecursively, ih]
  · intro subs tv tis ih
    simp [scrubFolder, getTasksRecursively, ih]
  · intro subs tv tis tv1 ih
    simp [scrubFolder, getTasksRecursively, ih, tasksLoop_scrub]
  · intro t
    simp [foldersLoop]
  · intro n
    cases h : scrubFolderList []
    · simp [foldersLoop]
    · simp [scrubFolderList] at h
  · intro rest n ih
    simp [scrubFolderList, foldersLoop, ih]
  · intro sf rest n ih1 ih2
    simp [scrubFolderList, foldersLoop, ih1, ih2]

/-- Claim C9: enumeration is deterministic in the Directory Service
state — two runs against trees equal up to `lastRunTime` drift give
results that are equal (hence equal as sets) once `LastRunTime` is
ignored. -/
theorem C9_enumeration_deterministic :
    ∀ f1 f2 : FolderNode, scrubFolder f1 = scrubFolder f2 →
      (getTasksRecursively f1).map eraseLast = (getTasksRecursively f2).map eraseLast
      ∧ ∀ t : Task, t ∈ (getTasksRecursively f1).map eraseLast
          ↔ t ∈ (getTasksRecursively f2).map eraseLast := by
  intro f1 f2 h
  have h1 : (getTasksRecursively f1).map eraseLast
      = (getTasksRecursively f2).map eraseLast := by
    rw [← scrub_run, ← scrub_run, h]
  exact ⟨h1, fun t => by rw [h1]⟩

/-- Witness for C9: two trees differing only in a `lastRunTime`
value. -/
theorem C9_witness :
    scrubFolder (mkFolder [] [some exTaskA]) = scrubFolder (mkFolder [] [some exTaskA2])
    ∧ (getTasksRecursively (mkFolder [] [some exTaskA])).map eraseLast
        = (getTasksRecursively (mkFolder [] [some exTaskA2])).map eraseLast := by
  have hs : scrubFolder (mkFolder [] [some exTaskA])
      = scrubFolder (mkFolder [] [some exTaskA2]) := rfl
  exact ⟨hs, (C9_enumeration_deterministic _ _ hs).1⟩

end TaskSchedulerVerif
